import Mathlib

/-
Verification of the core of pg-database-utils: a shallow embedding of the
batched row-transformation and merge pipeline (sql.update_rows), the merge
statement builder (sql.update_from), the literal VALUES construct
(sql.Values and sql._compile_value), the type mapper (types.column_type_for)
and the SQL-parameter validators (validation.py).

Conventions of the embedding:
- Python exceptions are modeled with Except Exn; each Python "raise" becomes
  an Except.error carrying the same error kind and (where deterministic) the
  same message text.  Python joins invalid-name sets with arbitrary set
  iteration order; the model joins them in input order, so only messages
  that do not depend on set order are reproduced verbatim.
- Database interaction is modeled by an explicit database state (Db, a list
  of named tables) plus a trace of executed effects (Effect): every SQL
  statement sent to the database and every log line appears in the trace in
  execution order.  SQL statements the database runs (UPDATE, SELECT INTO,
  INSERT INTO, DROP TABLE) are recorded structurally.
- The caller-supplied transform of update_rows is a Lean function
  Row to Except Exn (Option Row): Except models the transform raising,
  Option none models the skip sentinel (Python None).
- The database verdict on the final merge UPDATE (success, or a failure such
  as a constraint violation) is injected as an explicit mergeResult
  parameter, since it is decided by the external database.
-/

/-! ## Python values

A Python value as it can appear in a row of literal values: None, bool, int,
str, list, dict (dict keys restricted to strings, as in JSON content), plus
date and datetime instances carried as their already-formatted text (the
configured strftime formats of types.DATE_FORMAT/DATETIME_FORMAT are opaque
configuration, so the model stores the formatted result). -/

inductive PyValue where
  | pyNone
  | pyBool (b : Bool)
  | pyInt (n : Int)
  | pyStr (s : String)
  | pyDate (formatted : String)
  | pyDatetime (formatted : String)
  | pyList (xs : List PyValue)
  | pyDict (kvs : List (String × PyValue))

/-- A database row: an ordered sequence of values. -/
abbrev Row := List PyValue

def joinComma (xs : List String) : String := String.intercalate ", " xs

/-- True exactly for Python None, which models SQL NULL. -/
def isNull : PyValue → Bool
  | .pyNone => true
  | _ => false

/-- True exactly for Python dict values (isinstance(value, dict)). -/
def isDict : PyValue → Bool
  | .pyDict _ => true
  | _ => false

mutual

/-- Python repr() of a value, for the constructors modeled here.  String
repr is simplified to plain single quotes (faithful for strings without
quotes, backslashes or control characters, which is all the development
evaluates it on). -/
def pyRepr : PyValue → String
  | .pyNone => "None"
  | .pyBool b => if b then "True" else "False"
  | .pyInt n => toString n
  | .pyStr s => "\x27" ++ s ++ "\x27"
  | .pyDate s => s
  | .pyDatetime s => s
  | .pyList xs => "[" ++ joinComma (pyReprList xs) ++ "]"
  | .pyDict kvs => "\x7b" ++ joinComma (pyReprKvs kvs) ++ "\x7d"

def pyReprList : List PyValue → List String
  | [] => []
  | x :: xs => pyRepr x :: pyReprList xs

def pyReprKvs : List (String × PyValue) → List String
  | [] => []
  | (k, v) :: kvs => ("\x27" ++ k ++ "\x27: " ++ pyRepr v) :: pyReprKvs kvs

end

/-- Python str() of a value: the string itself for str, repr otherwise
(for the constructors modeled here). -/
def pyToStr : PyValue → String
  | .pyStr s => s
  | v => pyRepr v

mutual

/-- Python json.dumps with default separators: double-quoted strings
(escaping simplified as in pyRepr), lowercase literals, ", " and ": "
separators. -/
def jsonDumps : PyValue → String
  | .pyNone => "null"
  | .pyBool b => if b then "true" else "false"
  | .pyInt n => toString n
  | .pyStr s => "\"" ++ s ++ "\""
  | .pyDate s => "\"" ++ s ++ "\""
  | .pyDatetime s => "\"" ++ s ++ "\""
  | .pyList xs => "[" ++ joinComma (jsonDumpsList xs) ++ "]"
  | .pyDict kvs => "\x7b" ++ joinComma (jsonDumpsKvs kvs) ++ "\x7d"

def jsonDumpsList : List PyValue → List String
  | [] => []
  | x :: xs => jsonDumps x :: jsonDumpsList xs

def jsonDumpsKvs : List (String × PyValue) → List String
  | [] => []
  | (k, v) :: kvs => ("\"" ++ k ++ "\": " ++ jsonDumps v) :: jsonDumpsKvs kvs

end

/-! ## Column types (types.py)

The sqlalchemy/geoalchemy2 type classes that COLUMN_TYPE_MAP can produce.
Class names follow the Python classes (sqltypes.Boolean, ...,
postgresql.json.JSON, gistypes.Geometry). -/

inductive SqlType where
  | sqlBoolean
  | sqlBigInteger
  | sqlLargeBinary
  | sqlGeometry
  | sqlGeography
  | sqlInteger
  | sqlFloat
  | sqlDate
  | sqlDateTime
  | sqlNumeric
  | sqlJSON
  | sqlJSONB
  | sqlRaster
  | sqlUnicodeText
  deriving DecidableEq

/-- The Python class __name__ of each type class. -/
def typeName : SqlType → String
  | .sqlBoolean => "Boolean"
  | .sqlBigInteger => "BigInteger"
  | .sqlLargeBinary => "LargeBinary"
  | .sqlGeometry => "Geometry"
  | .sqlGeography => "Geography"
  | .sqlInteger => "Integer"
  | .sqlFloat => "Float"
  | .sqlDate => "Date"
  | .sqlDateTime => "DateTime"
  | .sqlNumeric => "Numeric"
  | .sqlJSON => "JSON"
  | .sqlJSONB => "JSONB"
  | .sqlRaster => "Raster"
  | .sqlUnicodeText => "UnicodeText"

/-- types.COLUMN_TYPE_MAP, in source order. -/
def COLUMN_TYPE_MAP : List (String × SqlType) :=
  [ ("bool", .sqlBoolean),
    ("boolean", .sqlBoolean),
    ("bigint", .sqlBigInteger),
    ("binary", .sqlLargeBinary),
    ("bytea", .sqlLargeBinary),
    ("geometry", .sqlGeometry),
    ("geography", .sqlGeography),
    ("int", .sqlInteger),
    ("integer", .sqlInteger),
    ("float", .sqlFloat),
    ("date", .sqlDate),
    ("datetime", .sqlDateTime),
    ("decimal", .sqlNumeric),
    ("double", .sqlNumeric),
    ("numeric", .sqlNumeric),
    ("number", .sqlNumeric),
    ("json", .sqlJSON),
    ("jsonb", .sqlJSONB),
    ("raster", .sqlRaster),
    ("string", .sqlUnicodeText),
    ("text", .sqlUnicodeText),
    ("timestamp", .sqlDateTime),
    ("unicode", .sqlUnicodeText),
    ("varchar", .sqlUnicodeText) ]

/-- Python str.lower, restricted to ASCII case mapping (all COLUMN_TYPE_MAP
keys are ASCII).  String.toLower itself is avoided only because its
byte-position recursion does not reduce inside the kernel. -/
def pyLower (s : String) : String := String.mk (s.toList.map Char.toLower)

/-- Dictionary lookup in COLUMN_TYPE_MAP. -/
def mapLookup (key : String) : Option SqlType :=
  (COLUMN_TYPE_MAP.find? (fun p => p.1 == key)).map (fun p => p.2)

/-! Exceptions. -/

inductive Exn where
  | valueError (msg : String)
  | argumentError (msg : String)
  | attributeError (msg : String)
  | userError (msg : String)
  | dbError (msg : String)
  deriving DecidableEq

/-- An argument passed to types.column_type_for: a sqltypes.TypeEngine
instance, a TypeEngine subclass, a string, or any other Python object
(which has no lower() method). -/
inductive PyTypeArg where
  | typeInstance (t : SqlType)
  | typeClass (t : SqlType)
  | strArg (s : String)
  | otherArg

/-- Models types.column_type_for with its default argument "unicode": a
TypeEngine instance or class is returned as is; a string is lowercased and
looked up in COLUMN_TYPE_MAP, falling back to COLUMN_TYPE_MAP of the
default; any other object raises AttributeError on column_type.lower(). -/
def column_type_for (column_type : PyTypeArg) : Except Exn SqlType :=
  match column_type with
  | .typeInstance t => .ok t
  | .typeClass t => .ok t
  | .strArg s => .ok ((mapLookup (pyLower s)).getD ((mapLookup "unicode").getD .sqlUnicodeText))
  | .otherArg => .error (.attributeError "object has no attribute lower")

/-- The string form of column_type_for, as used by the Values construct on
its per-column type strings. -/
def column_type_for_string (s : String) : SqlType :=
  (mapLookup (pyLower s)).getD .sqlUnicodeText

/-- Models types.to_date_string: a date or datetime value is rendered from
its (already formatted) text, any other value from str(value); the result
is cast via DATE_FORMAT_MAP of the declared column type. -/
def to_date_string (column_type : SqlType) (value : PyValue) : String :=
  let sval :=
    match value with
    | .pyDate s => s
    | .pyDatetime s => s
    | v => pyToStr v
  let cast := if column_type = .sqlDate then "::date" else "::timestamp"
  "\x27" ++ sval ++ "\x27" ++ cast

/-- Models types.to_json_string: a dict value is first replaced by
json.dumps(value); the result is rendered through the f-string
as quote, str(value), quote, double colon, the class __name__. -/
def to_json_string (column_type : SqlType) (value : PyValue) : String :=
  let sval :=
    match value with
    | .pyDict kvs => jsonDumps (.pyDict kvs)
    | v => pyToStr v
  "\x27" ++ sval ++ "\x27::" ++ typeName column_type

/-! Subclass relations used by issubclass checks in sql._compile_value:
JSONB is a subclass of JSON; Float is a subclass of Numeric; UnicodeText is
in the String family; Date and DateTime are the date family. -/

def isDateFamily : SqlType → Bool
  | .sqlDate => true
  | .sqlDateTime => true
  | _ => false

def isJsonFamily : SqlType → Bool
  | .sqlJSON => true
  | .sqlJSONB => true
  | _ => false

def isStringFamily : SqlType → Bool
  | .sqlUnicodeText => true
  | _ => false

def isNumericFamily : SqlType → Bool
  | .sqlNumeric => true
  | .sqlFloat => true
  | _ => false

/-- Models compiler.render_literal_value for the value shapes the
development evaluates: strings are single-quoted with internal quotes
doubled, booleans and integers use their PostgreSQL literal text, anything
else falls back to its quoted string form.  (Python float coercion in the
numeric branch is not modeled bit-exactly; no claim depends on it.) -/
def render_literal_value (value : PyValue) : String :=
  match value with
  | .pyStr s => "\x27" ++ s.replace "\x27" "\x27\x27" ++ "\x27"
  | .pyBool b => if b then "true" else "false"
  | .pyInt n => toString n
  | v => "\x27" ++ pyToStr v ++ "\x27"

/-- Models sql._compile_value: NULL for None; date family via
to_date_string; JSON family via to_json_string; string family stringified
then escaped; numeric family coerced then rendered; all else rendered
directly. -/
def _compile_value (value : PyValue) (type_ : SqlType) : String :=
  match value with
  | .pyNone => "NULL"
  | v =>
    if isDateFamily type_ then to_date_string type_ v
    else if isJsonFamily type_ then to_json_string type_ v
    else
      let v2 := if isStringFamily type_ then PyValue.pyStr (pyToStr v) else v
      render_literal_value v2

/-! ## validation.py

SAFE_SQL_REGEX is the compiled Python pattern r"^[0-9A-Za-z_]{1,63}$" used
via .match.  The model reproduces Python re semantics for this anchored
single-character-class pattern: the repetition consumes 1 to 63 leading
characters of the class, and the dollar anchor succeeds either at the end
of the string or just before a newline that is the last character (the
documented behavior of a dollar without re.MULTILINE). -/

/-- The character class [0-9A-Za-z_] (ASCII only, as written). -/
def isWordChar (c : Char) : Bool :=
  (c ≥ "0".get 0 && c ≤ "9".get 0) ||
  (c ≥ "A".get 0 && c ≤ "Z".get 0) ||
  (c ≥ "a".get 0 && c ≤ "z".get 0) ||
  c = "_".get 0

/-- The Python dollar anchor at offset j of the character list: the end of
the string, or just before a trailing newline. -/
def dollarAt (cs : List Char) (j : Nat) : Bool :=
  j = cs.length || (j + 1 = cs.length && cs.getD j " ".toList.head! = Char.ofNat 10)

/-- Whether the dollar anchor holds at some offset j with 1 le j le n. -/
def existsDollarUpTo (cs : List Char) : Nat → Bool
  | 0 => false
  | n + 1 => dollarAt cs (n + 1) || existsDollarUpTo cs n

/-- Python re.match of an anchored pattern caret, class-repetition with
bounds lo..hi, dollar: the class consumes j leading class characters for
some lo le j le hi, and the dollar anchor must hold at j. -/
def pyAnchoredClassMatch (ok : Char → Bool) (hi : Nat) (s : String) : Bool :=
  let cs := s.toList
  let k := min hi (cs.takeWhile ok).length
  existsDollarUpTo cs k

/-- SAFE_SQL_REGEX.match(s) as a Boolean. -/
def safeSqlMatch (s : String) : Bool :=
  pyAnchoredClassMatch isWordChar 63 s

/-- Models validation.validate_sql_params for one keyword parameter name:
"name" is appended when the parameter name has no underscore, otherwise
underscores become spaces. -/
def paramText (param : String) : String :=
  if (param.splitOn "_").length = 1 then param ++ " name"
  else " ".intercalate (param.splitOn "_")

/-- The inner loop of validate_sql_params over one parameter value list:
an empty value raises empty_message when one is given, and a value whose
str form fails SAFE_SQL_REGEX raises "Invalid ...". -/
def validate_param_values (ptext : String) (all_vals : List String)
    (empty_message : Option String) : List String → Except Exn Unit
  | [] => .ok ()
  | v :: rest =>
    if v = "" ∧ empty_message.isSome then
      .error (.valueError (empty_message.getD ""))
    else if ¬ safeSqlMatch v then
      .error (.valueError ("Invalid " ++ ptext ++ ": " ++ joinComma all_vals))
    else validate_param_values ptext all_vals empty_message rest

/-- Models validation.validate_sql_params: each keyword argument is a
parameter name with its list of values (a scalar argument is the singleton
list); an empty list raises empty_message when one is given; each value is
checked against SAFE_SQL_REGEX. -/
def validate_sql_params (params : List (String × List String))
    (empty_message : Option String) : Except Exn Unit :=
  match params with
  | [] => .ok ()
  | (p, vals) :: rest =>
    if vals = [] ∧ empty_message.isSome then
      .error (.valueError (empty_message.getD ""))
    else
      match validate_param_values (paramText p) vals empty_message vals with
      | .error e => .error e
      | .ok _ => validate_sql_params rest empty_message

/-- Models validation.validate_column_type for string arguments: empty
strings are rejected; the base type before any parenthesis must be a
COLUMN_TYPE_MAP key (lowercased); a parenthesized remainder must match
SQL_TYPE_REGEX (modeled as its character-class check; the dollar newline
subtlety is irrelevant to the claims and left out of this secondary
regex). -/
def validate_column_type_str (column_type : String) : Except Exn String :=
  if column_type = "" then .error (.valueError "Invalid column type: empty")
  else
    let base_type := (column_type.splitOn "(").headD ""
    let remaining := column_type.drop base_type.length
    if (mapLookup (pyLower base_type)).isNone then
      .error (.valueError ("Invalid column type: " ++ column_type))
    else if remaining ≠ "" ∧
        ¬ (remaining.toList.all (fun c =>
            isWordChar c || c = "(".get 0 || c = ")".get 0 || c = ",".get 0)) then
      .error (.valueError ("Invalid column type: " ++ column_type))
    else .ok column_type

/-! ## The database model

A table descriptor: name, ordered columns with their declared types, and
current rows.  A database is the list of existing tables process-wide,
standing for what schema reflection (schema.get_table / get_tables) sees. -/

structure PgColumn where
  name : String
  type : SqlType
  deriving DecidableEq

structure PgTable where
  name : String
  columns : List PgColumn
  rows : List Row

abbrev Db := List PgTable

def columnNames (t : PgTable) : List String := t.columns.map (fun c => c.name)

/-- schema.get_tables / metadata lookup of one table by name. -/
def dbLookup (db : Db) (n : String) : Option PgTable :=
  db.find? (fun t => t.name == n)

/-- schema.table_exists for a table name. -/
def dbContains (db : Db) (n : String) : Bool :=
  (dbLookup db n).isSome

/-- Creation of a new table (the database side of SELECT INTO). -/
def dbInsert (db : Db) (t : PgTable) : Db := db ++ [t]

/-- Dropping a table by name (the database side of DROP TABLE). -/
def dbErase (db : Db) (n : String) : Db :=
  db.filter (fun t => ! (t.name == n))

/-- Appending rows to a named table (the database side of INSERT INTO). -/
def dbAppendRows (db : Db) (n : String) (new_rows : List Row) : Db :=
  db.map (fun t => if t.name == n then { t with rows := t.rows ++ new_rows } else t)

/-- The str(column.type) string used by update_rows and insert_into when
capturing per-column SQL type strings; sqlalchemy renders these as the SQL
names, which COLUMN_TYPE_MAP maps back after lowercasing. -/
def typeSqlString : SqlType → String
  | .sqlBoolean => "BOOLEAN"
  | .sqlBigInteger => "BIGINT"
  | .sqlLargeBinary => "BYTEA"
  | .sqlGeometry => "geometry"
  | .sqlGeography => "geography"
  | .sqlInteger => "INTEGER"
  | .sqlFloat => "FLOAT"
  | .sqlDate => "DATE"
  | .sqlDateTime => "TIMESTAMP"
  | .sqlNumeric => "NUMERIC"
  | .sqlJSON => "JSON"
  | .sqlJSONB => "JSONB"
  | .sqlRaster => "raster"
  | .sqlUnicodeText => "TEXT"

/-- The invalid-name list reported by validate_columns_in: the requested
names missing from the table.  Python renders set(column_names) minus the
table names in set order; the model keeps input order after removing
duplicates, so the reported content is the same. -/
def invalidCols (t : PgTable) (column_names : List String) : List String :=
  (column_names.filter (fun c => ! (columnNames t).contains c)).dedup

/-- Models validation.validate_columns_in (returning the validated table,
as validate_table_name does in the source): a missing table raises
"No table named ...", an empty name list raises "...: empty", and names
absent from the table raise the error text with the missing names. -/
def validate_columns_in (table : Option PgTable) (column_names : List String)
    (empty_table : String) (message : Option String) : Except Exn PgTable :=
  match table with
  | none => .error (.valueError ("No table named " ++ empty_table))
  | some t =>
    let error_text := message.getD ("Invalid column names for " ++ t.name)
    if column_names = [] then .error (.valueError (error_text ++ ": empty"))
    else if column_names.all (fun c => (columnNames t).contains c) then .ok t
    else .error (.valueError (error_text ++ ": " ++ joinComma (invalidCols t column_names)))

/-! ## SQL where-clause expressions (sql.update_from, lines 163-173)

update_from only ever compares a source column with the target column of
the same name, so the AST carries the shared column name.  and_ / or_ take
argument lists, as in the source. -/

inductive SqlExpr where
  | srcEqTgt (col : String)
  | srcDistinctTgt (col : String)
  | srcNotStEqualsTgt (col : String)
  | sqlAnd (es : List SqlExpr)
  | sqlOr (es : List SqlExpr)

/-- SQL three-valued logic. -/
inductive TV where
  | tt | ff | unknown
  deriving DecidableEq

def tvAnd : TV → TV → TV
  | .ff, _ => .ff
  | _, .ff => .ff
  | .tt, .tt => .tt
  | _, _ => .unknown

def tvOr : TV → TV → TV
  | .tt, _ => .tt
  | _, .tt => .tt
  | .ff, .ff => .ff
  | _, _ => .unknown

mutual

/-- PostgreSQL evaluation of a where clause over one source row and one
target row, each given as an assignment of column names to values
(PyValue.pyNone standing for NULL).  Plain equality is strict (NULL
operands give unknown); IS DISTINCT FROM is the NULL-safe comparison; the
ST_Equals spatial function is strict, and its non-NULL verdict, like the
non-NULL scalar equality verdict, is supplied by the database, so both are
parameters (eqv for scalar equality, stEq for ST_Equals). -/
def evalExpr (eqv stEq : PyValue → PyValue → Bool) (f g : String → PyValue) : SqlExpr → TV
  | .srcEqTgt c =>
    if isNull (f c) || isNull (g c) then .unknown
    else if eqv (f c) (g c) then .tt else .ff
  | .srcDistinctTgt c =>
    if isNull (f c) && isNull (g c) then .ff
    else if isNull (f c) || isNull (g c) then .tt
    else if eqv (f c) (g c) then .ff else .tt
  | .srcNotStEqualsTgt c =>
    if isNull (f c) || isNull (g c) then .unknown
    else if stEq (f c) (g c) then .ff else .tt
  | .sqlAnd es => evalAndList eqv stEq f g es
  | .sqlOr es => evalOrList eqv stEq f g es

def evalAndList (eqv stEq : PyValue → PyValue → Bool) (f g : String → PyValue) : List SqlExpr → TV
  | [] => .tt
  | e :: es => tvAnd (evalExpr eqv stEq f g e) (evalAndList eqv stEq f g es)

def evalOrList (eqv stEq : PyValue → PyValue → Bool) (f g : String → PyValue) : List SqlExpr → TV
  | [] => .ff
  | e :: es => tvOr (evalExpr eqv stEq f g e) (evalOrList eqv stEq f g es)

end

/-- The UPDATE statement built by sql.update_from: UPDATE target SET
c = source.c for each set column, with the combined where clause
(Update(into_table, whereclause=join_where).where(skip_where) renders the
two clauses conjoined). -/
structure UpdateStmt where
  source : String
  target : String
  setCols : List String
  whereClause : SqlExpr

/-! ## Executed effects

Every SQL statement sent to the database, every cursor batch fetch, and
every log line, in execution order. -/

inductive Effect where
  | logInfo (msg : String)
  | logWarning (msg : String)
  | fetchBatch (rows : Nat)
  | execSelectInto (into : String) (cols : List String) (vals : List Row)
  | execInsertInto (into : String) (cols : List String) (vals : List Row)
  | execUpdate (stmt : UpdateStmt)
  | execDropTable (table : String)

def isStaging : Effect → Bool
  | .execSelectInto _ _ _ => true
  | .execInsertInto _ _ _ => true
  | _ => false

def isSelectIntoEffect : Effect → Bool
  | .execSelectInto _ _ _ => true
  | _ => false

def isMergeExec : Effect → Bool
  | .execUpdate _ => true
  | _ => false

def isFetch : Effect → Bool
  | .fetchBatch _ => true
  | _ => false

def stagingEffects (fx : List Effect) : List Effect := fx.filter isStaging

/-! ## sql.update_from -/

/-- The join-column filter of update_from (line 152): the candidate update
columns are the source columns restricted to target_columns (all of them
when target_columns is absent or contains "*"), minus the join columns.
target_columns of none models the Python default None. -/
def updateColsOf (from_table : PgTable) (join_columns : List String)
    (target_columns : Option (List String)) : List PgColumn :=
  let base :=
    match target_columns with
    | none => from_table.columns
    | some tcs =>
      if tcs.contains "*" then from_table.columns
      else from_table.columns.filter (fun c => tcs.contains c.name)
  base.filter (fun c => ! join_columns.contains c.name)

/-- The where clause built by update_from: the conjunction of per-join-
column equality, AND-ed with the disjunction over the update columns of
NOT ST_Equals for geometry-typed columns and IS DISTINCT FROM otherwise. -/
def mergeWhere (join_columns : List String) (update_cols : List PgColumn) : SqlExpr :=
  let join_where := SqlExpr.sqlAnd (join_columns.map SqlExpr.srcEqTgt)
  let skip_where := SqlExpr.sqlOr (update_cols.map (fun c =>
    if c.type = SqlType.sqlGeometry then SqlExpr.srcNotStEqualsTgt c.name
    else SqlExpr.srcDistinctTgt c.name))
  SqlExpr.sqlAnd [join_where, skip_where]

/-- The full UPDATE statement built by update_from. -/
def mergeStmt (table_name into_table_name : String) (join_columns : List String)
    (update_cols : List PgColumn) : UpdateStmt :=
  { source := table_name,
    target := into_table_name,
    setCols := update_cols.map (fun c => c.name),
    whereClause := mergeWhere join_columns update_cols }

/-- Models sql.update_from.  Both tables are resolved via get_tables; the
join columns are validated against both; the update columns are the
target_columns restricted to the source columns, minus the join columns;
an empty result is a warning-only no-op; extra requested names produce an
ignore warning; otherwise the single UPDATE statement is executed.  The
model takes column lists directly (the source also accepts comma-separated
strings it splits first) and returns the executed effect trace; the
database contents are unchanged by this function apart from the UPDATE the
database itself applies, which is recorded in the trace. -/
def update_from (db : Db) (table_name into_table_name : String)
    (join_columns : List String) (target_columns : Option (List String)) :
    Except Exn Unit × List Effect :=
  match validate_columns_in (dbLookup db table_name) join_columns table_name
      (some ("Join columns missing in source table " ++ table_name)) with
  | .error e => (.error e, [])
  | .ok from_table =>
  match validate_columns_in (dbLookup db into_table_name) join_columns into_table_name
      (some ("Join columns missing in target table " ++ into_table_name)) with
  | .error e => (.error e, [])
  | .ok _ =>
    let update_cols := updateColsOf from_table join_columns target_columns
    if update_cols = [] then
      (.ok (), [.logWarning "update_from: no non-primary key columns to update"])
    else
      let warn_fx :=
        match target_columns with
        | none => []
        | some tcs =>
          if tcs ≠ [] ∧ update_cols.length < tcs.length then
            [Effect.logWarning ("update_from: ignoring columns: " ++
              joinComma (tcs.filter (fun c => ! (update_cols.map (fun u => u.name)).contains c)))]
          else []
      let stmt := mergeStmt table_name into_table_name join_columns update_cols
      (.ok (), warn_fx ++
        [.logInfo ("update_from: updating " ++ into_table_name ++ " from " ++ table_name),
         .execUpdate stmt])

/-! ## sql.Values and the staging statements -/

/-- Models Values.__init__ on list arguments (the source also accepts
comma-separated strings it splits, and quotes string-given column names).
A falsy types argument (None or the empty list) defaults every column to
UnicodeText; matching lengths map each type string through column_type_for;
otherwise ArgumentError is raised.  The value tuples are stored untouched. -/
def Values_init (cols : List String) (types : Option (List String))
    (vals : List Row) : Except Exn (List String × List SqlType × List Row) :=
  match types with
  | none => .ok (cols, cols.map (fun _ => SqlType.sqlUnicodeText), vals)
  | some ts =>
    if ts = [] then .ok (cols, cols.map (fun _ => SqlType.sqlUnicodeText), vals)
    else if cols.length = ts.length then
      .ok (cols, ts.map column_type_for_string, vals)
    else .error (.argumentError "Types do not correspond to columns")

/-- The compiled VALUES clause body (sql._values): each row tuple rendered
through _compile_value at its column type. -/
def compile_values (cols : List String) (types : List SqlType) (vals : List Row) : String :=
  let value_cols := joinComma (cols.map (fun c => "\"" ++ c ++ "\""))
  let value_sets := joinComma (vals.map (fun tup =>
    "(" ++ String.intercalate "," ((tup.zip types).map (fun p => _compile_value p.1 p.2)) ++ ")"))
  "(VALUES " ++ value_sets ++ ") AS \"values\" (" ++ value_cols ++ ")"

/-- Models sql.select_into on list arguments: an existing table raises
"already exists"; empty values warn and return; the column names pass
validate_sql_params; a non-empty type list must match the column count; with
inspect, every row must match the column count; then the SELECT INTO runs
and the new table exists with the given columns and rows. -/
def select_into (db : Db) (table_name : String) (values : List Row)
    (column_names : List String) (column_types : Option (List String))
    (inspect : Bool) : Except Exn Unit × Db × List Effect :=
  if dbContains db table_name then
    (.error (.valueError ("Table " ++ table_name ++ " already exists")), db, [])
  else if values.isEmpty then
    (.ok (), db, [.logWarning "select_into: no values to insert"])
  else
    match validate_sql_params [("column_names", column_names)] (some "No columns to select") with
    | .error e => (.error e, db, [])
    | .ok _ =>
      if (column_types.getD []) ≠ [] ∧ column_names.length ≠ (column_types.getD []).length then
        (.error (.valueError "Column types provided do not match columns"), db, [])
      else if inspect ∧ ¬ values.all (fun val => column_names.length = val.length) then
        (.error (.valueError ("Values provided do not match columns: " ++ joinComma column_names)), db, [])
      else
        match Values_init column_names column_types values with
        | .error e => (.error e, db, [])
        | .ok (cols, types, vals) =>
          let new_table : PgTable :=
            { name := table_name,
              columns := cols.zipWith (fun c ty => PgColumn.mk c ty) types,
              rows := vals }
          (.ok (), dbInsert db new_table,
           [.logInfo ("select_into: creating " ++ table_name),
            .execSelectInto table_name column_names values])

/-- Models sql.insert_into on list arguments: the target table is resolved
(get_table raises for a missing table unless create_if_not_exists, in which
case select_into takes over without explicit types); the column names are
validated against the table; empty values warn and return; with inspect,
every row must match the column count; then the INSERT INTO runs and the
rows are appended. -/
def insert_into (db : Db) (table_name : String) (values : List Row)
    (column_names : List String) (create_if_not_exists : Bool)
    (inspect : Bool) : Except Exn Unit × Db × List Effect :=
  match dbLookup db table_name with
  | none =>
    if create_if_not_exists then select_into db table_name values column_names none inspect
    else (.error (.valueError ("No table named " ++ table_name)), db, [])
  | some into_table =>
    match validate_columns_in (some into_table) column_names table_name none with
    | .error e => (.error e, db, [])
    | .ok _ =>
      if values.isEmpty then (.ok (), db, [.logWarning "insert_into: no values to insert"])
      else if inspect ∧ ¬ values.all (fun val => column_names.length = val.length) then
        (.error (.valueError ("Values provided do not match columns: " ++ joinComma column_names)), db, [])
      else
        let column_types := column_names.map (fun c =>
          ((into_table.columns.find? (fun col => col.name == c)).map
            (fun col => typeSqlString col.type)).getD "")
        match Values_init column_names (some column_types) values with
        | .error e => (.error e, db, [])
        | .ok _ =>
          (.ok (), dbAppendRows db table_name values,
           [.logInfo ("insert_into: populating " ++ table_name),
            .execInsertInto table_name column_names values])

/-- Models schema.drop_table with checkfirst (the only way the pipeline
calls it): a missing table is only a warning; an existing one is dropped. -/
def drop_table (db : Db) (table_name : String) : Db × List Effect :=
  if dbContains db table_name then
    (dbErase db table_name,
     [.logInfo ("drop_table: dropping table named " ++ table_name),
      .execDropTable table_name])
  else
    (db, [.logWarning ("drop_table: no table found named " ++ table_name)])

/-! ## sql.update_rows -/

/-- Fuel-driven splitting of the streamed rows into consecutive fetchmany
batches (the source loop: for offset in range(0, table_count, batch_size),
each iteration fetching batch_size rows).  The fuel (instantiated with the
row count) only makes the recursion structural; it never cuts a batch. -/
def chunksFuel (bs : Nat) : Nat → List Row → List (List Row)
  | _, [] => []
  | 0, r :: rs => [r :: rs]
  | fuel + 1, r :: rs => (r :: rs.take (bs - 1)) :: chunksFuel bs fuel (rs.drop (bs - 1))

/-- The batches fetched by the streaming cursor. -/
def chunks (bs : Nat) (rows : List Row) : List (List Row) :=
  chunksFuel bs rows.length rows

/-- The per-batch transform collection (lines 251-252): update_row is
applied to each fetched row lazily; a raise propagates; None results are
skipped; the rest are collected in order. -/
def transformBatch (update_row : Row → Except Exn (Option Row)) :
    List Row → Except Exn (List Row)
  | [] => .ok []
  | r :: rs =>
    match update_row r with
    | .error e => .error e
    | .ok none => transformBatch update_row rs
    | .ok (some r2) =>
      match transformBatch update_row rs with
      | .error e => .error e
      | .ok rest => .ok (r2 :: rest)

/-- The batch loop of update_rows (lines 245-262): each iteration fetches a
batch, transforms it, skips staging when nothing survived, creates the
staging table via select_into on the first surviving batch (capturing the
per-column type strings), and appends via insert_into afterwards.  Returns
whether the staging table was created, with the resulting database and
effect trace. -/
def processBatches (tmp_table_name : String) (column_names : List String)
    (col_types : List String) (update_row : Row → Except Exn (Option Row)) :
    List (List Row) → Bool → Db → Except Exn Bool × Db × List Effect
  | [], table_created, db => (.ok table_created, db, [])
  | batch :: rest, table_created, db =>
    let fetch := Effect.fetchBatch batch.length
    match transformBatch update_row batch with
    | .error e => (.error e, db, [fetch])
    | .ok rows_to_send =>
      if rows_to_send.isEmpty then
        let cont := processBatches tmp_table_name column_names col_types update_row rest table_created db
        (cont.1, cont.2.1, fetch :: cont.2.2)
      else if table_created then
        let ins := insert_into db tmp_table_name rows_to_send column_names false false
        match ins.1 with
        | .error e => (.error e, ins.2.1, fetch :: ins.2.2)
        | .ok _ =>
          let cont := processBatches tmp_table_name column_names col_types update_row rest true ins.2.1
          (cont.1, cont.2.1, fetch :: (ins.2.2 ++ cont.2.2))
      else
        let sel := select_into db tmp_table_name rows_to_send column_names (some col_types) false
        match sel.1 with
        | .error e => (.error e, sel.2.1, fetch :: sel.2.2)
        | .ok _ =>
          let cont := processBatches tmp_table_name column_names col_types update_row rest true sel.2.1
          (cont.1, cont.2.1, fetch :: (sel.2.2 ++ cont.2.2))

/-- The try block of update_rows (lines 238-274): run the batch loop; count
the staged rows (get_table_count on the staging table, raising if it is
unexpectedly missing); nothing staged is an informational no-op; otherwise
update_from merges the staging table into the target once.  mergeResult is
the external database verdict on that executed UPDATE (it only applies when
an UPDATE was actually executed). -/
def update_rows_try (db : Db) (table : PgTable) (table_name tmp_table_name : String)
    (join_columns target_columns column_names : List String) (col_types : List String)
    (update_row : Row → Except Exn (Option Row)) (bs : Nat)
    (mergeResult : Except Exn Unit) : Except Exn Unit × Db × List Effect :=
  let batches := chunks bs table.rows
  let pb := processBatches tmp_table_name column_names col_types update_row batches false db
  match pb.1 with
  | .error e => (.error e, pb.2.1, pb.2.2)
  | .ok table_created =>
    let db1 := pb.2.1
    if table_created then
      match dbLookup db1 tmp_table_name with
      | none => (.error (.valueError ("No table named " ++ tmp_table_name)), db1, pb.2.2)
      | some tmp_table =>
        let update_count := tmp_table.rows.length
        if update_count = 0 then
          (.ok (), db1, pb.2.2 ++ [.logInfo "update_rows:\tno rows to update"])
        else
          let uf := update_from db1 tmp_table_name table_name join_columns (some target_columns)
          let res :=
            match uf.1 with
            | .error e => Except.error e
            | .ok _ => if uf.2.any isMergeExec then mergeResult else .ok ()
          (res, db1,
           pb.2.2 ++ [.logInfo "update_rows:\tapplying changes"] ++ uf.2)
    else (.ok (), db1, pb.2.2 ++ [.logInfo "update_rows:\tno rows to update"])

/-- Models sql.update_rows on list arguments.  Validation order follows the
source: resolve the table (get_table raises for a missing one), validate
join columns then target columns against it, reject a zero batch size
(the callable check on update_row cannot fail in a typed embedding and is
omitted), resolve a negative batch size to the table row count, and
short-circuit an empty table; then the try block runs with the staging
table named tmp_ + table_name, and drop_table on the staging table is the
finally clause executed on success and on every raise alike. -/
def update_rows (db : Db) (table_name : String)
    (join_columns target_columns : List String)
    (update_row : Row → Except Exn (Option Row)) (batch_size : Int)
    (mergeResult : Except Exn Unit) : Except Exn Unit × Db × List Effect :=
  match dbLookup db table_name with
  | none => (.error (.valueError ("No table named " ++ table_name)), db, [])
  | some table =>
  match validate_columns_in (some table) join_columns table_name
      (some ("Join columns missing in " ++ table_name)) with
  | .error e => (.error e, db, [])
  | .ok _ =>
  match validate_columns_in (some table) target_columns table_name
      (some ("Target columns missing in " ++ table_name)) with
  | .error e => (.error e, db, [])
  | .ok _ =>
    if batch_size = 0 then
      (.error (.valueError ("Invalid batch size: " ++ toString batch_size)), db, [])
    else
      let column_names := join_columns ++ target_columns
      let col_types := column_names.map (fun c =>
        ((table.columns.find? (fun col => col.name == c)).map
          (fun col => typeSqlString col.type)).getD "")
      let table_count := table.rows.length
      let bs : Nat := if batch_size < 0 then table_count else batch_size.toNat
      if table_count = 0 then
        (.ok (), db, [.logInfo "update_rows:\tno rows to update"])
      else
        let tmp_table_name := "tmp_" ++ table_name
        let tr := update_rows_try db table table_name tmp_table_name join_columns
          target_columns column_names col_types update_row bs mergeResult
        let dr := drop_table tr.2.1 tmp_table_name
        (tr.1, dr.1, tr.2.2 ++ dr.2)

/-! ## Helper notions shared by the theorems -/

/-- The UPDATE statements contained in an effect trace. -/
def execUpdates (fx : List Effect) : List UpdateStmt :=
  fx.filterMap (fun e =>
    match e with
    | .execUpdate s => some s
    | _ => none)

/-- The staging discipline of one trace: either no staging statement ran,
or the first was a SELECT INTO of the staging table and every later one an
INSERT INTO of the staging table. -/
def StagingShape (tmp : String) (fx : List Effect) : Prop :=
  stagingEffects fx = [] ∨
  ∃ cols vals rest, stagingEffects fx = Effect.execSelectInto tmp cols vals :: rest ∧
    ∀ e ∈ rest, ∃ cols2 vals2, e = Effect.execInsertInto tmp cols2 vals2

/-! ## C9: unrecognized types in the Type Mapper -/

/-- C9 counterexample: the string "no_such_type" is not a COLUMN_TYPE_MAP
key, yet column_type_for does not reject it with an error: it produces the
default UnicodeText column type, so the claim that every unrecognized
column type is rejected is false on the code. -/
theorem c9_counterexample :
    mapLookup (pyLower "no_such_type") = none ∧
    column_type_for (.strArg "no_such_type") = .ok SqlType.sqlUnicodeText :=
  ⟨by decide, rfl⟩

/-- C9 amended: for every unrecognized type-name string, the Type Mapper
falls back to the default unicode-text column type instead of raising. -/
theorem c9_amended (s : String) (h : mapLookup (pyLower s) = none) :
    column_type_for (.strArg s) = .ok SqlType.sqlUnicodeText := by
  simp [column_type_for, h]
  rfl

theorem c9_amended_witness :
    mapLookup (pyLower "not_a_type") = none ∧
    column_type_for (.strArg "not_a_type") = .ok SqlType.sqlUnicodeText :=
  ⟨by decide, c9_amended "not_a_type" (by decide)⟩

/-! ## C6: arity mismatch in the Values construct -/

/-- C6 counterexample: an empty column-type list is of unequal length with
a two-column name list, yet Values does not raise the arity error: the
falsy types argument silently defaults both columns to UnicodeText. -/
theorem c6_counterexample :
    (["a", "b"] : List String).length ≠ ([] : List String).length ∧
    Values_init ["a", "b"] (some []) [[.pyInt 1, .pyInt 2]] =
      .ok (["a", "b"], [SqlType.sqlUnicodeText, SqlType.sqlUnicodeText],
           [[.pyInt 1, .pyInt 2]]) :=
  ⟨by decide, rfl⟩

/-- C6 amended: building the Values construct with a NON-EMPTY column-type
list whose length differs from the column-name list fails with the
ArgumentError before any value tuple is inspected (the outcome does not
depend on the value tuples at all); an absent or empty type list instead
defaults every column to unicode text. -/
theorem c6_amended (cols ts : List String) (vals vals2 : List Row)
    (hne : ts ≠ []) (hlen : cols.length ≠ ts.length) :
    Values_init cols (some ts) vals =
      .error (.argumentError "Types do not correspond to columns") ∧
    Values_init cols (some ts) vals = Values_init cols (some ts) vals2 := by
  have h : ∀ vs : List Row, Values_init cols (some ts) vs =
      .error (.argumentError "Types do not correspond to columns") := by
    intro vs
    simp only [Values_init, if_neg hne, if_neg hlen]
  rw [h vals, h vals2]
  exact ⟨rfl, rfl⟩

theorem c6_amended_witness :
    (["int"] : List String) ≠ [] ∧ (["a", "b"] : List String).length ≠ (["int"] : List String).length ∧
    (Values_init ["a", "b"] (some ["int"]) [[.pyInt 1]] =
      .error (.argumentError "Types do not correspond to columns") ∧
     Values_init ["a", "b"] (some ["int"]) [[.pyInt 1]] =
       Values_init ["a", "b"] (some ["int"]) []) :=
  ⟨by decide, by decide, c6_amended ["a", "b"] ["int"] [[.pyInt 1]] [] (by decide) (by decide)⟩

/-! ## C5: JSON rendering in literal VALUES compilation -/

/-- C5 counterexample: the sequence value ["a"] under declared type JSON is
NOT serialized to JSON text first: json.dumps would give ["a"] with double
quotes, but only dict values are serialized, so the sequence is rendered
through str() with Python repr quoting, and the two renderings differ. -/
theorem c5_counterexample :
    _compile_value (.pyList [.pyStr "a"]) .sqlJSON =
      "\x27" ++ pyToStr (.pyList [.pyStr "a"]) ++ "\x27::JSON" ∧
    _compile_value (.pyList [.pyStr "a"]) .sqlJSON ≠
      "\x27" ++ jsonDumps (.pyList [.pyStr "a"]) ++ "\x27::JSON" :=
  ⟨rfl, by decide⟩

/-- C5 amended: in literal VALUES compilation, for every non-NULL value of
declared JSON or JSONB type, only a structured MAPPING value is serialized
to JSON text first; any other value (sequences included) is rendered via
its Python string form; either way the result is quote, text, quote,
double colon, typename. -/
theorem c5_amended (value : PyValue) (type_ : SqlType)
    (hjson : isJsonFamily type_ = true) (hnn : isNull value = false) :
    _compile_value value type_ =
      "\x27" ++ (if isDict value then jsonDumps value else pyToStr value) ++
        "\x27::" ++ typeName type_ := by
  have hdate : isDateFamily type_ = false := by
    cases type_ <;> simp_all [isJsonFamily, isDateFamily]
  cases value <;>
    simp_all [_compile_value, isNull, isDict, to_json_string, hdate, hjson]

theorem c5_amended_witness :
    isJsonFamily .sqlJSONB = true ∧ isNull (.pyDict [("k", .pyInt 1)]) = false ∧
    _compile_value (.pyDict [("k", .pyInt 1)]) .sqlJSONB =
      "\x27" ++ (if isDict (.pyDict [("k", .pyInt 1)]) then jsonDumps (.pyDict [("k", .pyInt 1)])
                 else pyToStr (.pyDict [("k", .pyInt 1)])) ++ "\x27::" ++ typeName .sqlJSONB :=
  ⟨rfl, rfl, c5_amended (.pyDict [("k", .pyInt 1)]) .sqlJSONB rfl rfl⟩

/-! ## C7: update_from with an empty update-column set -/

/-- C7: when the candidate update columns (the requested target columns
restricted to the source, minus the join columns) are empty, update_from
is a warning-only no-op: it reports that there is nothing to update and
executes no SQL statement of any kind, so the target is untouched. -/
theorem c7_noop (db : Db) (table_name into_table_name : String)
    (join_columns : List String) (target_columns : Option (List String))
    (ft it : PgTable)
    (h1 : validate_columns_in (dbLookup db table_name) join_columns table_name
      (some ("Join columns missing in source table " ++ table_name)) = .ok ft)
    (h2 : validate_columns_in (dbLookup db into_table_name) join_columns into_table_name
      (some ("Join columns missing in target table " ++ into_table_name)) = .ok it)
    (hempty : updateColsOf ft join_columns target_columns = []) :
    update_from db table_name into_table_name join_columns target_columns =
      (.ok (), [.logWarning "update_from: no non-primary key columns to update"]) ∧
    (update_from db table_name into_table_name join_columns target_columns).2.countP
      isMergeExec = 0 ∧
    (update_from db table_name into_table_name join_columns target_columns).2.countP
      isStaging = 0 := by
  have hmain : update_from db table_name into_table_name join_columns target_columns =
      (.ok (), [.logWarning "update_from: no non-primary key columns to update"]) := by
    unfold update_from
    rw [h1, h2]
    simp [hempty]
  refine ⟨hmain, ?_, ?_⟩ <;> rw [hmain] <;> rfl

def c7Src : PgTable := { name := "src", columns := [⟨"pk", .sqlInteger⟩], rows := [] }

def c7Dst : PgTable := { name := "dst", columns := [⟨"pk", .sqlInteger⟩], rows := [] }

theorem c7_noop_witness :
    update_from [c7Src, c7Dst] "src" "dst" ["pk"] none =
      (.ok (), [.logWarning "update_from: no non-primary key columns to update"]) ∧
    (update_from [c7Src, c7Dst] "src" "dst" ["pk"] none).2.countP isMergeExec = 0 ∧
    (update_from [c7Src, c7Dst] "src" "dst" ["pk"] none).2.countP isStaging = 0 :=
  c7_noop [c7Src, c7Dst] "src" "dst" ["pk"] none c7Src c7Dst rfl rfl rfl

/-! ## C2: the shape and semantics of the update_from WHERE clause -/

theorem tvAnd_eq_tt_iff (a b : TV) : tvAnd a b = .tt ↔ a = .tt ∧ b = .tt := by
  cases a <;> cases b <;> simp [tvAnd]

theorem tvOr_eq_tt_iff (a b : TV) : tvOr a b = .tt ↔ a = .tt ∨ b = .tt := by
  cases a <;> cases b <;> simp [tvOr]

theorem evalAndList_eq_tt_iff (eqv stEq : PyValue → PyValue → Bool)
    (f g : String → PyValue) (es : List SqlExpr) :
    evalAndList eqv stEq f g es = .tt ↔ ∀ e ∈ es, evalExpr eqv stEq f g e = .tt := by
  induction es with
  | nil => simp [evalAndList]
  | cons e es ih => simp [evalAndList, tvAnd_eq_tt_iff, ih]

theorem evalOrList_eq_tt_iff (eqv stEq : PyValue → PyValue → Bool)
    (f g : String → PyValue) (es : List SqlExpr) :
    evalOrList eqv stEq f g es = .tt ↔ ∃ e ∈ es, evalExpr eqv stEq f g e = .tt := by
  induction es with
  | nil => simp [evalOrList]
  | cons e es ih => simp [evalOrList, tvOr_eq_tt_iff, ih]

/-- The per-update-column comparison of the skip clause: a negated
ST_Equals for geometry-typed columns, IS DISTINCT FROM otherwise. -/
def columnDiffers (c : PgColumn) : SqlExpr :=
  if c.type = SqlType.sqlGeometry then .srcNotStEqualsTgt c.name
  else .srcDistinctTgt c.name

theorem mergeWhere_eq_tt_iff (eqv stEq : PyValue → PyValue → Bool)
    (f g : String → PyValue) (join_columns : List String) (update_cols : List PgColumn) :
    evalExpr eqv stEq f g (mergeWhere join_columns update_cols) = .tt ↔
      ((∀ c ∈ join_columns, evalExpr eqv stEq f g (.srcEqTgt c) = .tt) ∧
       ∃ c ∈ update_cols, evalExpr eqv stEq f g (columnDiffers c) = .tt) := by
  show evalAndList eqv stEq f g _ = .tt ↔ _
  rw [evalAndList_eq_tt_iff]
  constructor
  · intro h
    have hj := h _ (by simp : SqlExpr.sqlAnd (join_columns.map SqlExpr.srcEqTgt) ∈ _)
    have hs := h _ (by simp : SqlExpr.sqlOr (update_cols.map (fun c =>
      if c.type = SqlType.sqlGeometry then SqlExpr.srcNotStEqualsTgt c.name
      else SqlExpr.srcDistinctTgt c.name)) ∈ _)
    have hj2 : evalAndList eqv stEq f g (join_columns.map SqlExpr.srcEqTgt) = .tt := hj
    have hs2 : evalOrList eqv stEq f g (update_cols.map (fun c =>
        if c.type = SqlType.sqlGeometry then SqlExpr.srcNotStEqualsTgt c.name
        else SqlExpr.srcDistinctTgt c.name)) = .tt := hs
    rw [evalAndList_eq_tt_iff] at hj2
    rw [evalOrList_eq_tt_iff] at hs2
    constructor
    · intro c hc
      exact hj2 _ (List.mem_map_of_mem _ hc)
    · obtain ⟨e, he, htt⟩ := hs2
      obtain ⟨c, hc, rfl⟩ := List.mem_map.mp he
      exact ⟨c, hc, htt⟩
  · rintro ⟨hj, c, hc, hdiff⟩
    intro e he
    simp only [List.mem_cons, List.not_mem_nil, or_false] at he
    rcases he with rfl | rfl
    · show evalAndList eqv stEq f g _ = .tt
      rw [evalAndList_eq_tt_iff]
      intro e2 he2
      obtain ⟨c2, hc2, rfl⟩ := List.mem_map.mp he2
      exact hj c2 hc2
    · show evalOrList eqv stEq f g _ = .tt
      rw [evalOrList_eq_tt_iff]
      exact ⟨columnDiffers c, List.mem_map_of_mem _ hc, hdiff⟩

/-- C2: on the executing path, update_from runs exactly one statement: an
UPDATE of the target table setting each update column from the source,
whose WHERE clause is the conjunction of per-join-column equality with the
disjunction over the update columns of NOT ST_Equals (geometry) or IS
DISTINCT FROM (otherwise); and under PostgreSQL three-valued semantics that
WHERE clause is true for a source row / target row pair exactly when every
join-column equality holds and at least one update column differs, so a
target row is written only under that condition (an UPDATE writes a row
only where its WHERE clause is true). -/
theorem c2_update_from_statement (db : Db) (table_name into_table_name : String)
    (join_columns : List String) (target_columns : Option (List String))
    (ft it : PgTable) (eqv stEq : PyValue → PyValue → Bool) (f g : String → PyValue)
    (h1 : validate_columns_in (dbLookup db table_name) join_columns table_name
      (some ("Join columns missing in source table " ++ table_name)) = .ok ft)
    (h2 : validate_columns_in (dbLookup db into_table_name) join_columns into_table_name
      (some ("Join columns missing in target table " ++ into_table_name)) = .ok it)
    (hne : updateColsOf ft join_columns target_columns ≠ []) :
    execUpdates (update_from db table_name into_table_name join_columns target_columns).2 =
      [mergeStmt table_name into_table_name join_columns
        (updateColsOf ft join_columns target_columns)] ∧
    (mergeStmt table_name into_table_name join_columns
        (updateColsOf ft join_columns target_columns)).target = into_table_name ∧
    (mergeStmt table_name into_table_name join_columns
        (updateColsOf ft join_columns target_columns)).setCols =
      (updateColsOf ft join_columns target_columns).map (fun c => c.name) ∧
    (evalExpr eqv stEq f g (mergeStmt table_name into_table_name join_columns
        (updateColsOf ft join_columns target_columns)).whereClause = .tt ↔
      ((∀ c ∈ join_columns, evalExpr eqv stEq f g (.srcEqTgt c) = .tt) ∧
       ∃ c ∈ updateColsOf ft join_columns target_columns,
         evalExpr eqv stEq f g (columnDiffers c) = .tt)) := by
  refine ⟨?_, rfl, rfl, mergeWhere_eq_tt_iff eqv stEq f g _ _⟩
  unfold update_from
  rw [h1, h2]
  simp only [if_neg hne]
  rcases target_columns with _ | tcs
  · rfl
  · simp only []
    split <;> rfl

/-! ## Effect-shape lemmas for the pipeline sub-operations -/

theorem dbLookup_dbErase (db : Db) (n : String) : dbLookup (dbErase db n) n = none := by
  unfold dbLookup dbErase
  rw [List.find?_eq_none]
  intro t ht
  have := (List.mem_filter.mp ht).2
  simpa using this

theorem dbContains_drop (db : Db) (n : String) :
    dbContains (drop_table db n).1 n = false := by
  unfold drop_table
  split
  · show dbContains (dbErase db n) n = false
    unfold dbContains
    rw [dbLookup_dbErase]
    rfl
  · next h =>
    simpa using h

theorem drop_table_fx (db : Db) (n : String) :
    (drop_table db n).2.countP isMergeExec = 0 ∧
    (drop_table db n).2.countP isFetch = 0 ∧
    stagingEffects (drop_table db n).2 = [] := by
  unfold drop_table
  split <;> simp [stagingEffects, isStaging, isMergeExec, isFetch]

theorem update_from_fx (db : Db) (tn itn : String) (jc : List String)
    (tcs : Option (List String)) :
    (update_from db tn itn jc tcs).2.countP isMergeExec ≤ 1 ∧
    (update_from db tn itn jc tcs).2.countP isFetch = 0 ∧
    stagingEffects (update_from db tn itn jc tcs).2 = [] := by
  unfold update_from
  dsimp only
  repeat' split
  all_goals simp [stagingEffects, isMergeExec, isStaging, isFetch,
    List.countP_cons, List.countP_nil, List.countP_append, List.filter_append]

theorem select_into_fx (db : Db) (n : String) (vals : List Row) (cols : List String)
    (cts : Option (List String)) (insp : Bool) :
    (select_into db n vals cols cts insp).2.2.countP isMergeExec = 0 ∧
    (select_into db n vals cols cts insp).2.2.countP isFetch = 0 ∧
    (stagingEffects (select_into db n vals cols cts insp).2.2 = [] ∨
      stagingEffects (select_into db n vals cols cts insp).2.2 =
        [.execSelectInto n cols vals]) := by
  unfold select_into
  dsimp only
  repeat' split
  all_goals simp [stagingEffects, isMergeExec, isStaging, isFetch,
    List.countP_cons, List.countP_nil]

/-- On the success path with a non-empty value list, select_into executes
exactly the SELECT INTO staging statement. -/
theorem select_into_staging_ok (db : Db) (n : String) (vals : List Row)
    (cols : List String) (cts : Option (List String)) (insp : Bool)
    (hok : (select_into db n vals cols cts insp).1 = .ok ())
    (hvals : vals ≠ []) :
    stagingEffects (select_into db n vals cols cts insp).2.2 =
      [.execSelectInto n cols vals] := by
  revert hok
  unfold select_into
  dsimp only
  repeat' split
  all_goals intro hok
  all_goals first
    | rfl
    | (exfalso; rename_i hemp _; exact hvals (List.isEmpty_iff.mp hemp))
    | (exfalso; rename_i hemp; exact hvals (List.isEmpty_iff.mp hemp))
    | simp at hok

theorem insert_into_fx (db : Db) (n : String) (vals : List Row) (cols : List String)
    (insp : Bool) :
    (insert_into db n vals cols false insp).2.2.countP isMergeExec = 0 ∧
    (insert_into db n vals cols false insp).2.2.countP isFetch = 0 ∧
    (stagingEffects (insert_into db n vals cols false insp).2.2 = [] ∨
      stagingEffects (insert_into db n vals cols false insp).2.2 =
        [.execInsertInto n cols vals]) := by
  unfold insert_into
  dsimp only
  repeat' split
  all_goals simp_all [stagingEffects, isMergeExec, isStaging, isFetch,
    List.countP_cons, List.countP_nil]

/-! ## The staging discipline of the batch loop -/

/-- Every staging statement in the trace is an INSERT INTO of the staging
table. -/
def AllInserts (tmp : String) (fx : List Effect) : Prop :=
  ∀ e ∈ stagingEffects fx, ∃ cols vals, e = Effect.execInsertInto tmp cols vals

theorem stagingEffects_append (l1 l2 : List Effect) :
    stagingEffects (l1 ++ l2) = stagingEffects l1 ++ stagingEffects l2 := by
  simp [stagingEffects]

theorem stagingEffects_cons_skip (e : Effect) (l : List Effect)
    (h : isStaging e = false) :
    stagingEffects (e :: l) = stagingEffects l := by
  simp [stagingEffects, h]

/-- The batch loop invariant: no UPDATE is ever executed by the loop; once
the staging table exists every staging statement is an append; starting
without a staging table, the staging statements follow the create-then-
append shape; and the loop reports the staging table as created only if a
SELECT INTO is in its trace. -/
theorem processBatches_spec (tmp : String) (cn ct : List String)
    (f : Row → Except Exn (Option Row)) :
    ∀ (batches : List (List Row)) (created : Bool) (db : Db),
    (processBatches tmp cn ct f batches created db).2.2.countP isMergeExec = 0 ∧
    (created = true → AllInserts tmp (processBatches tmp cn ct f batches created db).2.2) ∧
    (created = false → StagingShape tmp (processBatches tmp cn ct f batches created db).2.2) ∧
    (created = false → (processBatches tmp cn ct f batches created db).1 = .ok true →
      stagingEffects (processBatches tmp cn ct f batches created db).2.2 ≠ []) := by
  intro batches
  induction batches with
  | nil =>
    intro created db
    refine ⟨rfl, ?_, ?_, ?_⟩
    · intro _ e he
      simp [processBatches, stagingEffects] at he
    · intro _
      exact Or.inl rfl
    · intro hc hok
      rw [hc] at hok
      simp [processBatches] at hok
  | cons b rest ih =>
    intro created db
    simp only [processBatches]
    rcases htb : transformBatch f b with e | rows <;> dsimp only
    · refine ⟨by simp [isMergeExec], ?_, ?_, ?_⟩
      · intro _ e2 he2
        simp [stagingEffects, isStaging] at he2
      · intro _
        exact Or.inl (by simp [stagingEffects, isStaging])
      · intro _ hok
        simp at hok
    · by_cases hemp : rows.isEmpty = true
      · rw [if_pos hemp]
        obtain ⟨ihc, ihai, ihss, ihok⟩ := ih created db
        refine ⟨?_, ?_, ?_, ?_⟩
        · simpa [List.countP_cons, isMergeExec] using ihc
        · intro hc e2 he2
          rw [stagingEffects_cons_skip _ _ (by rfl)] at he2
          exact ihai hc e2 he2
        · intro hc
          rcases ihss hc with h0 | ⟨cols, vals, rest2, heq, hall⟩
          · exact Or.inl (by rwa [stagingEffects_cons_skip _ _ (by rfl)])
          · exact Or.inr ⟨cols, vals, rest2,
              by rwa [stagingEffects_cons_skip _ _ (by rfl)], hall⟩
        · intro hc hok
          rw [stagingEffects_cons_skip _ _ (by rfl)]
          exact ihok hc hok
      · rw [if_neg hemp]
        cases created with
        | true =>
          rw [if_pos rfl]
          rcases hins : insert_into db tmp rows cn false false with ⟨r1, db1, fx1⟩
          obtain ⟨hic, hif, hisg⟩ := insert_into_fx db tmp rows cn false
          rw [hins] at hic hif hisg
          dsimp only at hic hif hisg
          rcases r1 with e1 | u1 <;> dsimp only
          · refine ⟨?_, ?_, ?_, ?_⟩
            · simpa [List.countP_cons, isMergeExec] using hic
            · intro _ e2 he2
              rw [stagingEffects_cons_skip _ _ (by rfl)] at he2
              rcases hisg with h0 | h1
              · rw [h0] at he2; simp at he2
              · rw [h1] at he2
                simp only [List.mem_singleton] at he2
                exact ⟨cn, rows, he2⟩
            · intro hc; simp at hc
            · intro hc; simp at hc
          · obtain ⟨ihc, ihai, ihss, ihok⟩ := ih true db1
            refine ⟨?_, ?_, ?_, ?_⟩
            · simp [List.countP_cons, List.countP_append, isMergeExec, hic, ihc]
            · intro _ e2 he2
              rw [stagingEffects_cons_skip _ _ (by rfl), stagingEffects_append] at he2
              rcases List.mem_append.mp he2 with h2 | h2
              · rcases hisg with h0 | h1
                · rw [h0] at h2; simp at h2
                · rw [h1] at h2
                  simp only [List.mem_singleton] at h2
                  exact ⟨cn, rows, h2⟩
              · exact ihai rfl e2 h2
            · intro hc; simp at hc
            · intro hc; simp at hc
        | false =>
          rw [if_neg (by simp)]
          rcases hsel : select_into db tmp rows cn (some ct) false with ⟨r1, db1, fx1⟩
          obtain ⟨hsc, hsf, hssg⟩ := select_into_fx db tmp rows cn (some ct) false
          rw [hsel] at hsc hsf hssg
          dsimp only at hsc hsf hssg
          rcases r1 with e1 | u1 <;> dsimp only
          · refine ⟨?_, ?_, ?_, ?_⟩
            · simpa [List.countP_cons, isMergeExec] using hsc
            · intro hc; simp at hc
            · intro _
              rcases hssg with h0 | h1
              · exact Or.inl (by rw [stagingEffects_cons_skip _ _ (by rfl)]; exact h0)
              · exact Or.inr ⟨cn, rows, [],
                  by rw [stagingEffects_cons_skip _ _ (by rfl)]; simpa using h1, by simp⟩
            · intro _ hok
              simp at hok
          · have hrows : rows ≠ [] := by
              intro h0
              rw [h0] at hemp
              simp at hemp
            have hsok : stagingEffects fx1 = [.execSelectInto tmp cn rows] := by
              have h2 := select_into_staging_ok db tmp rows cn (some ct) false
                (by rw [hsel]) hrows
              rw [hsel] at h2
              exact h2
            obtain ⟨ihc, ihai, ihss, ihok⟩ := ih true db1
            refine ⟨?_, ?_, ?_, ?_⟩
            · simp [List.countP_cons, List.countP_append, isMergeExec, hsc, ihc]
            · intro hc; simp at hc
            · intro _
              refine Or.inr ⟨cn, rows,
                stagingEffects (processBatches tmp cn ct f rest true db1).2.2, ?_, ?_⟩
              · rw [stagingEffects_cons_skip _ _ (by rfl), stagingEffects_append, hsok]
                rfl
              · intro e2 he2
                exact ihai rfl e2 he2
            · intro _ _
              rw [stagingEffects_cons_skip _ _ (by rfl), stagingEffects_append, hsok]
              simp

/-! ## C1: the staging table is gone after update_rows -/

/-- C1: for every update_rows call on a table that resolves, whose join and
target columns validate, with a non-zero batch size and at least one row,
the staging table tmp_ + table_name does not exist in the database once the
call returns — for EVERY transform (including ones that raise mid-batch)
and EVERY merge verdict (including a failing final UPDATE), because
drop_table runs as the finally clause on each of those exit paths and
swallows the case where staging was never created. -/
theorem c1_staging_dropped (db : Db) (table_name : String)
    (join_columns target_columns : List String)
    (update_row : Row → Except Exn (Option Row)) (batch_size : Int)
    (mergeResult : Except Exn Unit) (table t1 t2 : PgTable)
    (h0 : dbLookup db table_name = some table)
    (h1 : validate_columns_in (some table) join_columns table_name
      (some ("Join columns missing in " ++ table_name)) = .ok t1)
    (h2 : validate_columns_in (some table) target_columns table_name
      (some ("Target columns missing in " ++ table_name)) = .ok t2)
    (hbs : batch_size ≠ 0)
    (hrows : table.rows ≠ []) :
    dbContains (update_rows db table_name join_columns target_columns
      update_row batch_size mergeResult).2.1 ("tmp_" ++ table_name) = false := by
  unfold update_rows
  simp only [h0, h1, h2]
  rw [if_neg hbs, if_neg (fun h => hrows (List.length_eq_zero.mp h))]
  exact dbContains_drop _ _

def wTable : PgTable :=
  { name := "t1",
    columns := [⟨"pk", .sqlInteger⟩, ⟨"a", .sqlUnicodeText⟩],
    rows := [[.pyInt 1, .pyStr "x"], [.pyInt 2, .pyStr "y"], [.pyInt 3, .pyStr "z"]] }

def wDb : Db := [wTable]

def wKeep : Row → Except Exn (Option Row) := fun r => .ok (some r)

theorem c1_staging_dropped_witness :
    dbLookup wDb "t1" = some wTable ∧
    validate_columns_in (some wTable) ["pk"] "t1"
      (some ("Join columns missing in " ++ "t1")) = .ok wTable ∧
    validate_columns_in (some wTable) ["a"] "t1"
      (some ("Target columns missing in " ++ "t1")) = .ok wTable ∧
    (2 : Int) ≠ 0 ∧ wTable.rows ≠ [] ∧
    dbContains (update_rows wDb "t1" ["pk"] ["a"] wKeep 2
      (.error (.dbError "merge failed"))).2.1 ("tmp_" ++ "t1") = false :=
  ⟨rfl, rfl, rfl, by decide, fun h => List.noConfusion h,
   c1_staging_dropped wDb "t1" ["pk"] ["a"] wKeep 2 (.error (.dbError "merge failed"))
     wTable wTable wTable rfl rfl rfl (by decide) (fun h => List.noConfusion h)⟩

/-! ## C8: batch size validation and the negative-batch-size single batch -/

/-- When the batch size is at least the row count, the cursor loop runs a
single iteration fetching the whole table. -/
theorem chunks_single (bs : Nat) (rows : List Row) (hne : rows ≠ [])
    (hle : rows.length ≤ bs) : chunks bs rows = [rows] := by
  rcases rows with _ | ⟨r, rs⟩
  · exact absurd rfl hne
  · show chunksFuel bs (rs.length + 1) (r :: rs) = [r :: rs]
    have h1 : rs.length ≤ bs - 1 := by
      simp only [List.length_cons] at hle
      omega
    simp only [chunksFuel]
    rw [List.take_of_length_le h1, List.drop_eq_nil_of_le h1]
    simp [chunksFuel]

/-- A single-batch loop performs exactly one cursor fetch, of the whole
batch. -/
theorem processBatches_single_fetch (tmp : String) (cn ct : List String)
    (f : Row → Except Exn (Option Row)) (b : List Row) (created : Bool) (db : Db) :
    (processBatches tmp cn ct f [b] created db).2.2.countP isFetch = 1 ∧
    Effect.fetchBatch b.length ∈ (processBatches tmp cn ct f [b] created db).2.2 := by
  simp only [processBatches]
  rcases htb : transformBatch f b with e | rows <;> dsimp only
  · simp [isFetch]
  · by_cases hemp : rows.isEmpty = true
    · rw [if_pos hemp]
      simp [List.countP_cons, isFetch, processBatches]
    · rw [if_neg hemp]
      cases created with
      | true =>
        rw [if_pos rfl]
        rcases hins : insert_into db tmp rows cn false false with ⟨r1, db1, fx1⟩
        obtain ⟨hic, hif, hisg⟩ := insert_into_fx db tmp rows cn false
        rw [hins] at hif
        dsimp only at hif
        rcases r1 with e1 | u1 <;> dsimp only
        · constructor
          · simp [List.countP_cons, isFetch, hif]
          · simp
        · constructor
          · simp [List.countP_cons, List.countP_append, isFetch, hif, processBatches]
          · simp
      | false =>
        rw [if_neg (by simp)]
        rcases hsel : select_into db tmp rows cn (some ct) false with ⟨r1, db1, fx1⟩
        obtain ⟨hsc, hsf, hssg⟩ := select_into_fx db tmp rows cn (some ct) false
        rw [hsel] at hsf
        dsimp only at hsf
        rcases r1 with e1 | u1 <;> dsimp only
        · constructor
          · simp [List.countP_cons, isFetch, hsf]
          · simp
        · constructor
          · simp [List.countP_cons, List.countP_append, isFetch, hsf, processBatches]
          · simp

/-- The try block over a single whole-table batch fetches exactly once. -/
theorem update_rows_try_single_fetch (db : Db) (table : PgTable)
    (tn tmp : String) (jc tcs cn : List String) (ct : List String)
    (f : Row → Except Exn (Option Row)) (bs : Nat) (mr : Except Exn Unit)
    (hsingle : chunks bs table.rows = [table.rows]) :
    (update_rows_try db table tn tmp jc tcs cn ct f bs mr).2.2.countP isFetch = 1 ∧
    Effect.fetchBatch table.rows.length ∈
      (update_rows_try db table tn tmp jc tcs cn ct f bs mr).2.2 := by
  unfold update_rows_try
  simp only [hsingle]
  obtain ⟨hc1, hm1⟩ := processBatches_single_fetch tmp cn ct f table.rows false db
  rcases hpb : processBatches tmp cn ct f [table.rows] false db with ⟨r1, db1, fx1⟩
  rw [hpb] at hc1 hm1
  dsimp only at hc1 hm1
  rcases r1 with e1 | created <;> dsimp only
  · exact ⟨hc1, hm1⟩
  · cases created with
    | true =>
      rw [if_pos rfl]
      rcases hlk : dbLookup db1 tmp with _ | tmp_table <;> dsimp only
      · exact ⟨hc1, hm1⟩
      · by_cases hz : tmp_table.rows.length = 0
        · rw [if_pos hz]
          constructor
          · simp [List.countP_append, isFetch, hc1]
          · exact List.mem_append.mpr (Or.inl hm1)
        · rw [if_neg hz]
          obtain ⟨-, huf, -⟩ := update_from_fx db1 tmp tn jc (some tcs)
          constructor
          · simp [List.countP_append, List.countP_cons, isFetch, hc1, huf]
          · exact List.mem_append.mpr (Or.inl (List.mem_append.mpr (Or.inl hm1)))
    | false =>
      rw [if_neg (by simp)]
      constructor
      · simp [List.countP_append, isFetch, hc1]
      · exact List.mem_append.mpr (Or.inl hm1)

/-- C8: a zero batch size raises the invalid-batch-size ValueError with the
database untouched and no effect executed at all (no row I/O, no
mutation); a negative batch size is resolved to the table row count, so
the entire non-empty table is processed as one batch: the trace holds
exactly one cursor fetch, and that fetch covers every row of the table. -/
theorem c8_batch_size (db : Db) (table_name : String)
    (join_columns target_columns : List String)
    (update_row : Row → Except Exn (Option Row)) (mergeResult : Except Exn Unit)
    (table t1 t2 : PgTable)
    (h0 : dbLookup db table_name = some table)
    (h1 : validate_columns_in (some table) join_columns table_name
      (some ("Join columns missing in " ++ table_name)) = .ok t1)
    (h2 : validate_columns_in (some table) target_columns table_name
      (some ("Target columns missing in " ++ table_name)) = .ok t2) :
    (update_rows db table_name join_columns target_columns update_row 0 mergeResult =
      (.error (.valueError "Invalid batch size: 0"), db, [])) ∧
    (∀ batch_size : Int, batch_size < 0 → table.rows ≠ [] →
      ((update_rows db table_name join_columns target_columns update_row
          batch_size mergeResult).2.2.countP isFetch = 1 ∧
       Effect.fetchBatch table.rows.length ∈
         (update_rows db table_name join_columns target_columns update_row
           batch_size mergeResult).2.2)) := by
  constructor
  · unfold update_rows
    simp only [h0, h1, h2]
    rw [if_pos trivial]
    rfl
  · intro batch_size hneg hrows
    unfold update_rows
    simp only [h0, h1, h2]
    rw [if_neg (by omega : ¬ batch_size = 0), if_pos hneg,
      if_neg (fun h => hrows (List.length_eq_zero.mp h))]
    have hsingle : chunks table.rows.length table.rows = [table.rows] :=
      chunks_single _ _ hrows (Nat.le_refl _)
    obtain ⟨hcf, hmf⟩ := update_rows_try_single_fetch db table table_name
      ("tmp_" ++ table_name) join_columns target_columns
      (join_columns ++ target_columns)
      ((join_columns ++ target_columns).map (fun c =>
        ((table.columns.find? (fun col => col.name == c)).map
          (fun col => typeSqlString col.type)).getD ""))
      update_row table.rows.length mergeResult hsingle
    obtain ⟨-, hdf, -⟩ := drop_table_fx
      (update_rows_try db table table_name ("tmp_" ++ table_name) join_columns
        target_columns (join_columns ++ target_columns)
        ((join_columns ++ target_columns).map (fun c =>
          ((table.columns.find? (fun col => col.name == c)).map
            (fun col => typeSqlString col.type)).getD ""))
        update_row table.rows.length mergeResult).2.1
      ("tmp_" ++ table_name)
    constructor
    · simp only [List.countP_append]
      rw [hcf, hdf]
    · exact List.mem_append.mpr (Or.inl hmf)

theorem c8_batch_size_witness :
    dbLookup wDb "t1" = some wTable ∧
    (update_rows wDb "t1" ["pk"] ["a"] wKeep 0 (.ok ()) =
      (.error (.valueError "Invalid batch size: 0"), wDb, [])) ∧
    ((-3 : Int) < 0) ∧ wTable.rows ≠ [] ∧
    ((update_rows wDb "t1" ["pk"] ["a"] wKeep (-3) (.ok ())).2.2.countP isFetch = 1 ∧
     Effect.fetchBatch wTable.rows.length ∈
       (update_rows wDb "t1" ["pk"] ["a"] wKeep (-3) (.ok ())).2.2) :=
  ⟨rfl,
   (c8_batch_size wDb "t1" ["pk"] ["a"] wKeep (.ok ()) wTable wTable wTable
     rfl rfl rfl).1,
   by decide, fun h => List.noConfusion h,
   (c8_batch_size wDb "t1" ["pk"] ["a"] wKeep (.ok ()) wTable wTable wTable
     rfl rfl rfl).2 (-3) (by decide) (fun h => List.noConfusion h)⟩

/-! ## C4: a target column absent from the source table -/

/-- C4 counterexample: with target_columns ["a", "nope"] where "nope" is
not a column of the table, update_rows does NOT proceed with the valid
subset and a warning: it raises the "Target columns missing" ValueError
before any row I/O, leaving the database untouched and executing no
effect. -/
theorem c4_counterexample :
    update_rows wDb "t1" ["pk"] ["a", "nope"] wKeep (-1) (.ok ()) =
      (.error (.valueError "Target columns missing in t1: nope"), wDb, []) := rfl

/-- C4 amended: when target_columns includes a name absent from the source
table, update_rows raises a ValueError (the validate_columns_in check on
target columns) before any row I/O or database mutation, rather than
proceeding with the valid subset under a warning.  (The warn-and-proceed
behavior belongs to update_from, not to update_rows.) -/
theorem c4_amended (db : Db) (table_name : String)
    (join_columns target_columns : List String)
    (update_row : Row → Except Exn (Option Row)) (batch_size : Int)
    (mergeResult : Except Exn Unit) (table t1 : PgTable) (c : String)
    (h0 : dbLookup db table_name = some table)
    (h1 : validate_columns_in (some table) join_columns table_name
      (some ("Join columns missing in " ++ table_name)) = .ok t1)
    (hc : c ∈ target_columns)
    (habs : (columnNames table).contains c = false) :
    ∃ msg, update_rows db table_name join_columns target_columns update_row
      batch_size mergeResult = (.error (.valueError msg), db, []) := by
  have hne : target_columns ≠ [] := List.ne_nil_of_mem hc
  have hall : target_columns.all (fun x => (columnNames table).contains x) = false := by
    rw [List.all_eq_false]
    exact ⟨c, hc, by simpa using habs⟩
  have hv : validate_columns_in (some table) target_columns table_name
      (some ("Target columns missing in " ++ table_name)) =
      .error (.valueError (("Target columns missing in " ++ table_name) ++ ": " ++
        joinComma (invalidCols table target_columns))) := by
    simp only [validate_columns_in, Option.getD_some]
    rw [if_neg hne, if_neg (by rw [hall]; exact Bool.false_ne_true)]
  unfold update_rows
  simp only [h0, h1, hv]
  exact ⟨_, rfl⟩

theorem c4_amended_witness :
    dbLookup wDb "t1" = some wTable ∧
    validate_columns_in (some wTable) ["pk"] "t1"
      (some ("Join columns missing in " ++ "t1")) = .ok wTable ∧
    "nope" ∈ ["a", "nope"] ∧
    (columnNames wTable).contains "nope" = false ∧
    ∃ msg, update_rows wDb "t1" ["pk"] ["a", "nope"] wKeep (-1) (.ok ()) =
      (.error (.valueError msg), wDb, []) :=
  ⟨rfl, rfl, by decide, by decide,
   c4_amended wDb "t1" ["pk"] ["a", "nope"] wKeep (-1) (.ok ()) wTable wTable
     "nope" rfl rfl (by decide) (by decide)⟩

/-! ## C3: staging created at most once, merged at most once, in order -/

/-- The full staging discipline of one update_rows trace: the staging
statements are one SELECT INTO of the staging table followed only by
INSERT INTOs of it (or nothing at all); at most one SELECT INTO and at
most one merge UPDATE occur; the merge occurs only when staging was
created; and the trace splits into a merge-free part followed by a
staging-free part, so every staging statement precedes the merge. -/
def StagingDiscipline (tmp : String) (fx : List Effect) : Prop :=
  StagingShape tmp fx ∧
  fx.countP isSelectIntoEffect ≤ 1 ∧
  fx.countP isMergeExec ≤ 1 ∧
  (fx.countP isMergeExec = 1 → stagingEffects fx ≠ []) ∧
  ∃ pre post, fx = pre ++ post ∧ pre.countP isMergeExec = 0 ∧ stagingEffects post = []

theorem selectCount_eq_stagingCount (fx : List Effect) :
    fx.countP isSelectIntoEffect = (stagingEffects fx).countP isSelectIntoEffect := by
  unfold stagingEffects
  rw [List.countP_filter]
  congr 1
  funext e
  cases e <;> rfl

theorem stagingShape_selectInto_count (tmp : String) (fx : List Effect)
    (h : StagingShape tmp fx) : fx.countP isSelectIntoEffect ≤ 1 := by
  rw [selectCount_eq_stagingCount]
  rcases h with h0 | ⟨cols, vals, rest, heq, hall⟩
  · rw [h0]
    simp
  · rw [heq]
    have hrest : rest.countP isSelectIntoEffect = 0 := by
      rw [List.countP_eq_zero]
      intro e he
      obtain ⟨c2, v2, rfl⟩ := hall e he
      simp [isSelectIntoEffect]
    simp [List.countP_cons, hrest, isSelectIntoEffect]

theorem selectCount_zero_of_clean (fx : List Effect)
    (hs : stagingEffects fx = []) : fx.countP isSelectIntoEffect = 0 := by
  rw [List.countP_eq_zero]
  intro e he hsel
  have hst : isStaging e = true := by
    cases e <;> simp_all [isSelectIntoEffect, isStaging]
  have : e ∈ stagingEffects fx := List.mem_filter.mpr ⟨he, hst⟩
  rw [hs] at this
  exact List.not_mem_nil e this

theorem stagingShape_append_clean (tmp : String) (fx gx : List Effect)
    (h : StagingShape tmp fx) (hs : stagingEffects gx = []) :
    StagingShape tmp (fx ++ gx) := by
  rcases h with h0 | ⟨cols, vals, rest, heq, hall⟩
  · exact Or.inl (by rw [stagingEffects_append, h0, hs]; rfl)
  · exact Or.inr ⟨cols, vals, rest,
      by rw [stagingEffects_append, hs, List.append_nil, heq], hall⟩

/-- A trace with no merge and no staging satisfies the discipline. -/
theorem stagingDiscipline_clean (tmp : String) (fx : List Effect)
    (hm : fx.countP isMergeExec = 0) (hs : stagingEffects fx = []) :
    StagingDiscipline tmp fx :=
  ⟨Or.inl hs,
   by rw [selectCount_zero_of_clean fx hs]; exact Nat.zero_le 1,
   by rw [hm]; exact Nat.zero_le 1,
   fun h => absurd (hm.symm.trans h) (by decide),
   fx, [], by simp, hm, rfl⟩

/-- Appending a merge-free staging-free tail preserves the discipline. -/
theorem stagingDiscipline_append_clean (tmp : String) (fx gx : List Effect)
    (h : StagingDiscipline tmp fx) (hm : gx.countP isMergeExec = 0)
    (hs : stagingEffects gx = []) :
    StagingDiscipline tmp (fx ++ gx) := by
  obtain ⟨hsh, hsel, hmc, h1, pre, post, heq, hpre, hpost⟩ := h
  refine ⟨stagingShape_append_clean tmp fx gx hsh hs, ?_, ?_, ?_,
    pre, post ++ gx, ?_, hpre, ?_⟩
  · exact stagingShape_selectInto_count tmp _ (stagingShape_append_clean tmp fx gx hsh hs)
  · rw [List.countP_append, hm]
    simpa using hmc
  · intro hone
    rw [List.countP_append, hm, Nat.add_zero] at hone
    rw [stagingEffects_append, hs, List.append_nil]
    exact h1 hone
  · rw [heq, List.append_assoc]
  · rw [stagingEffects_append, hpost, hs]
    rfl

/-- The try block obeys the staging discipline. -/
theorem update_rows_try_discipline (db : Db) (table : PgTable)
    (tn tmp : String) (jc tcs cn ct : List String)
    (f : Row → Except Exn (Option Row)) (bs : Nat) (mr : Except Exn Unit) :
    StagingDiscipline tmp (update_rows_try db table tn tmp jc tcs cn ct f bs mr).2.2 := by
  unfold update_rows_try
  dsimp only
  obtain ⟨hpc, hpai, hpss, hpok⟩ :=
    processBatches_spec tmp cn ct f (chunks bs table.rows) false db
  rcases hpb : processBatches tmp cn ct f (chunks bs table.rows) false db with ⟨r1, db1, fx1⟩
  rw [hpb] at hpc hpss hpok
  dsimp only at hpc hpss hpok
  have hshape : StagingShape tmp fx1 := hpss rfl
  have hbase : StagingDiscipline tmp fx1 :=
    ⟨hshape, stagingShape_selectInto_count tmp fx1 hshape,
     by rw [hpc]; exact Nat.zero_le 1,
     fun h => absurd (hpc.symm.trans h) (by decide),
     fx1, [], by simp, hpc, rfl⟩
  rcases r1 with e1 | created <;> dsimp only
  · exact hbase
  · cases created with
    | true =>
      rw [if_pos rfl]
      have hstagne : stagingEffects fx1 ≠ [] := hpok rfl rfl
      rcases hlk : dbLookup db1 tmp with _ | tmp_table <;> dsimp only
      · exact hbase
      · by_cases hz : tmp_table.rows.length = 0
        · rw [if_pos hz]
          exact stagingDiscipline_append_clean tmp fx1
            [.logInfo "update_rows:\tno rows to update"] hbase rfl rfl
        · rw [if_neg hz]
          obtain ⟨hum, huf, hus⟩ := update_from_fx db1 tmp tn jc (some tcs)
          refine ⟨?_, ?_, ?_, ?_, fx1 ++ [.logInfo "update_rows:\tapplying changes"],
            (update_from db1 tmp tn jc (some tcs)).2, by rw [List.append_assoc], ?_, hus⟩
          · exact stagingShape_append_clean tmp _ _
              (stagingShape_append_clean tmp fx1 _ hshape rfl) hus
          · exact stagingShape_selectInto_count tmp _
              (stagingShape_append_clean tmp _ _
                (stagingShape_append_clean tmp fx1 _ hshape rfl) hus)
          · rw [List.countP_append, List.countP_append, hpc]
            simpa [isMergeExec] using hum
          · intro _
            rw [stagingEffects_append, stagingEffects_append, hus, List.append_nil]
            simpa [stagingEffects, isStaging] using hstagne
          · rw [List.countP_append, hpc]
            rfl
    | false =>
      rw [if_neg (by simp)]
      exact stagingDiscipline_append_clean tmp fx1
        [.logInfo "update_rows:\tno rows to update"] hbase rfl rfl

/-- The try trace followed by the finally drop keeps the discipline. -/
theorem stagingDiscipline_try_then_drop (tmp : String)
    (tr : Except Exn Unit × Db × List Effect)
    (h : StagingDiscipline tmp tr.2.2) :
    StagingDiscipline tmp (tr.2.2 ++ (drop_table tr.2.1 tmp).2) :=
  stagingDiscipline_append_clean tmp _ _ h
    (drop_table_fx tr.2.1 tmp).1 (drop_table_fx tr.2.1 tmp).2.2

/-- C3: in every run of update_rows, the trace obeys the staging
discipline: the staging table is created at most once (the first staging
statement, if any, is the single SELECT INTO of tmp_ + table_name, every
later staging statement an INSERT INTO of it); the merge UPDATE of
update_from runs at most once, only when the staging table was created,
and only after every staging statement. -/
theorem c3_staging_once (db : Db) (table_name : String)
    (join_columns target_columns : List String)
    (update_row : Row → Except Exn (Option Row)) (batch_size : Int)
    (mergeResult : Except Exn Unit) :
    StagingDiscipline ("tmp_" ++ table_name)
      (update_rows db table_name join_columns target_columns update_row
        batch_size mergeResult).2.2 := by
  unfold update_rows
  rcases h0 : dbLookup db table_name with _ | table
  · simp only [h0]
    exact stagingDiscipline_clean _ _ rfl rfl
  · simp only [h0]
    rcases h1 : validate_columns_in (some table) join_columns table_name
        (some ("Join columns missing in " ++ table_name)) with e1 | t1
    · simp only [h1]
      exact stagingDiscipline_clean _ _ rfl rfl
    · simp only [h1]
      rcases h2 : validate_columns_in (some table) target_columns table_name
          (some ("Target columns missing in " ++ table_name)) with e2 | t2
      · simp only [h2]
        exact stagingDiscipline_clean _ _ rfl rfl
      · simp only [h2]
        by_cases hbs : batch_size = 0
        · rw [if_pos hbs]
          exact stagingDiscipline_clean _ _ rfl rfl
        · rw [if_neg hbs]
          by_cases hcnt : table.rows.length = 0
          · rw [if_pos hcnt]
            exact stagingDiscipline_clean _ _ rfl rfl
          · rw [if_neg hcnt]
            exact stagingDiscipline_try_then_drop _ _
              (update_rows_try_discipline _ _ _ _ _ _ _ _ _ _ _)

def c2Src : PgTable :=
  { name := "src",
    columns := [⟨"pk", .sqlInteger⟩, ⟨"a", .sqlUnicodeText⟩, ⟨"g", .sqlGeometry⟩],
    rows := [] }

def c2Dst : PgTable :=
  { name := "dst",
    columns := [⟨"pk", .sqlInteger⟩, ⟨"a", .sqlUnicodeText⟩, ⟨"g", .sqlGeometry⟩],
    rows := [] }

theorem c2_update_from_statement_witness :
    validate_columns_in (dbLookup [c2Src, c2Dst] "src") ["pk"] "src"
      (some ("Join columns missing in source table " ++ "src")) = .ok c2Src ∧
    validate_columns_in (dbLookup [c2Src, c2Dst] "dst") ["pk"] "dst"
      (some ("Join columns missing in target table " ++ "dst")) = .ok c2Dst ∧
    updateColsOf c2Src ["pk"] (some ["a", "g"]) ≠ [] ∧
    (execUpdates (update_from [c2Src, c2Dst] "src" "dst" ["pk"] (some ["a", "g"])).2 =
      [mergeStmt "src" "dst" ["pk"] (updateColsOf c2Src ["pk"] (some ["a", "g"]))] ∧
    (mergeStmt "src" "dst" ["pk"] (updateColsOf c2Src ["pk"] (some ["a", "g"]))).target = "dst" ∧
    (mergeStmt "src" "dst" ["pk"] (updateColsOf c2Src ["pk"] (some ["a", "g"]))).setCols =
      (updateColsOf c2Src ["pk"] (some ["a", "g"])).map (fun c => c.name) ∧
    (evalExpr (fun _ _ => true) (fun _ _ => true) (fun _ => .pyInt 1) (fun _ => .pyInt 1)
        (mergeStmt "src" "dst" ["pk"] (updateColsOf c2Src ["pk"] (some ["a", "g"]))).whereClause = .tt ↔
      ((∀ c ∈ ["pk"], evalExpr (fun _ _ => true) (fun _ _ => true)
          (fun _ => .pyInt 1) (fun _ => .pyInt 1) (.srcEqTgt c) = .tt) ∧
       ∃ c ∈ updateColsOf c2Src ["pk"] (some ["a", "g"]),
         evalExpr (fun _ _ => true) (fun _ _ => true)
           (fun _ => .pyInt 1) (fun _ => .pyInt 1) (columnDiffers c) = .tt))) :=
  ⟨rfl, rfl, by decide,
   c2_update_from_statement [c2Src, c2Dst] "src" "dst" ["pk"] (some ["a", "g"])
     c2Src c2Dst (fun _ _ => true) (fun _ _ => true)
     (fun _ => .pyInt 1) (fun _ => .pyInt 1) rfl rfl (by decide)⟩

/-! ## C10: the SAFE_SQL_REGEX gate on identifier values -/

/-- The newline character, the one non-class character the Python dollar
anchor can leave at the end of a matched string. -/
def nlChar : Char := Char.ofNat 10

/-- A string core the claim describes: non-empty, at most 63 characters,
all drawn from [0-9A-Za-z_]. -/
def goodWordRun (cs : List Char) : Prop :=
  cs ≠ [] ∧ cs.length ≤ 63 ∧ cs.all isWordChar = true

theorem takeWhile_len_le (ok : Char → Bool) :
    ∀ cs : List Char, (cs.takeWhile ok).length ≤ cs.length := by
  intro cs
  induction cs with
  | nil => simp
  | cons c cs ih =>
    rw [List.takeWhile_cons]
    by_cases h : ok c = true
    · rw [if_pos h]
      simpa using ih
    · rw [if_neg h]
      simp

theorem all_of_takeWhile_len_eq (ok : Char → Bool) :
    ∀ cs : List Char, (cs.takeWhile ok).length = cs.length → cs.all ok = true := by
  intro cs
  induction cs with
  | nil => simp
  | cons c cs ih =>
    rw [List.takeWhile_cons]
    by_cases hc : ok c = true
    · rw [if_pos hc]
      intro h
      simp only [List.length_cons, Nat.succ.injEq] at h
      simp [hc, ih h]
    · rw [if_neg hc]
      intro h
      simp at h

theorem take_all_of_le_takeWhile (ok : Char → Bool) :
    ∀ (cs : List Char) (j : Nat), j ≤ (cs.takeWhile ok).length →
      (cs.take j).all ok = true := by
  intro cs
  induction cs with
  | nil => simp
  | cons c cs ih =>
    intro j hj
    rw [List.takeWhile_cons] at hj
    rcases j with _ | j
    · simp
    · by_cases hc : ok c = true
      · rw [if_pos hc] at hj
        simp only [List.length_cons] at hj
        simp only [List.take_succ_cons, List.all_cons, hc, Bool.true_and]
        exact ih j (Nat.le_of_succ_le_succ hj)
      · rw [if_neg hc] at hj
        simp at hj

theorem eq_take_append_getD :
    ∀ (cs : List Char) (j : Nat) (d : Char), j + 1 = cs.length →
      cs = cs.take j ++ [cs.getD j d] := by
  intro cs
  induction cs with
  | nil => intro j d h; simp at h
  | cons c cs ih =>
    intro j d h
    rcases j with _ | j
    · simp only [List.length_cons] at h
      have : cs = [] := List.length_eq_zero.mp (by omega)
      simp [this]
    · simp only [List.length_cons, Nat.succ.injEq] at h
      simp only [List.take_succ_cons, List.getD_cons_succ, List.cons_append]
      exact congrArg (c :: ·) (ih j d h)

theorem takeWhile_append_stop (ok : Char → Bool) :
    ∀ (t : List Char) (c : Char) (r : List Char), t.all ok = true → ok c = false →
      (t ++ c :: r).takeWhile ok = t := by
  intro t
  induction t with
  | nil =>
    intro c r _ hc
    simp [List.takeWhile_cons, hc]
  | cons a t ih =>
    intro c r hall hc
    simp only [List.all_cons, Bool.and_eq_true] at hall
    simp only [List.cons_append, List.takeWhile_cons, hall.1, if_true]
    rw [ih c r hall.2 hc]

theorem getD_append_len :
    ∀ (t : List Char) (c d : Char), (t ++ [c]).getD t.length d = c := by
  intro t
  induction t with
  | nil => intro c d; rfl
  | cons a t ih =>
    intro c d
    simp only [List.cons_append, List.length_cons, List.getD_cons_succ]
    exact ih c d

theorem takeWhile_eq_self_of_all (ok : Char → Bool) (cs : List Char)
    (h : cs.all ok = true) : cs.takeWhile ok = cs := by
  rw [List.takeWhile_eq_self_iff]
  intro x hx
  exact List.all_eq_true.mp h x hx

theorem existsDollarUpTo_iff (cs : List Char) :
    ∀ n : Nat, existsDollarUpTo cs n = true ↔
      ∃ j, 1 ≤ j ∧ j ≤ n ∧ dollarAt cs j = true := by
  intro n
  induction n with
  | zero =>
    simp only [existsDollarUpTo]
    constructor
    · intro h; cases h
    · rintro ⟨j, h1, h2, _⟩; omega
  | succ n ih =>
    simp only [existsDollarUpTo, Bool.or_eq_true, ih]
    constructor
    · rintro (h | ⟨j, h1, h2, h3⟩)
      · exact ⟨n + 1, by omega, by omega, h⟩
      · exact ⟨j, h1, by omega, h3⟩
    · rintro ⟨j, h1, h2, h3⟩
      by_cases hj : j = n + 1
      · exact Or.inl (hj ▸ h3)
      · exact Or.inr ⟨j, h1, by omega, h3⟩

theorem dollarAt_iff (cs : List Char) (j : Nat) :
    dollarAt cs j = true ↔
      (j = cs.length ∨ (j + 1 = cs.length ∧ cs.getD j (" ".toList.head!) = nlChar)) := by
  simp [dollarAt, nlChar]

/-- The exact set of strings SAFE_SQL_REGEX.match accepts under Python re
semantics: a 1-to-63-character word run, either alone or followed by one
trailing newline (the dollar anchor also matches just before a newline
that ends the string). -/
theorem safeSqlMatch_iff (s : String) :
    safeSqlMatch s = true ↔
      (goodWordRun s.toList ∨
        ∃ t, s.toList = t ++ [nlChar] ∧ goodWordRun t) := by
  unfold safeSqlMatch pyAnchoredClassMatch
  rw [existsDollarUpTo_iff]
  constructor
  · rintro ⟨j, h1, h2, h3⟩
    rw [dollarAt_iff] at h3
    have hk63 : j ≤ 63 := le_trans h2 (Nat.min_le_left _ _)
    have hkrun : j ≤ (s.toList.takeWhile isWordChar).length :=
      le_trans h2 (Nat.min_le_right _ _)
    rcases h3 with h3 | ⟨h3, hnl⟩
    · left
      have hrun_eq : (s.toList.takeWhile isWordChar).length = s.toList.length :=
        Nat.le_antisymm (takeWhile_len_le _ _) (h3 ▸ hkrun)
      refine ⟨?_, ?_, all_of_takeWhile_len_eq _ _ hrun_eq⟩
      · intro h0
        rw [h0] at h3
        simp at h3
        omega
      · omega
    · right
      refine ⟨s.toList.take j, ?_, ?_, ?_, take_all_of_le_takeWhile _ _ _ hkrun⟩
      · rw [← hnl]
        exact eq_take_append_getD s.toList j _ h3
      · intro h0
        have := congrArg List.length h0
        simp only [List.length_take, List.length_nil] at this
        omega
      · simp only [List.length_take]
        omega
  · rintro (⟨hne, hlen, hall⟩ | ⟨t, heq, hne, hlen, hall⟩)
    · refine ⟨s.toList.length, ?_, ?_, ?_⟩
      · have := List.length_pos.mpr hne
        omega
      · rw [takeWhile_eq_self_of_all _ _ hall]
        omega
      · rw [dollarAt_iff]
        exact Or.inl rfl
    · refine ⟨t.length, ?_, ?_, ?_⟩
      · have := List.length_pos.mpr hne
        omega
      · rw [heq]
        have hstop : (t ++ [nlChar]).takeWhile isWordChar = t :=
          takeWhile_append_stop isWordChar t nlChar [] hall (by decide)
        rw [hstop]
        omega
      · rw [dollarAt_iff, heq]
        right
        constructor
        · simp
        · exact getD_append_len t nlChar _

theorem validate_param_values_sound (ptext : String) (all_vals : List String)
    (em : Option String) :
    ∀ vs : List String, validate_param_values ptext all_vals em vs = .ok () →
      ∀ v ∈ vs, safeSqlMatch v = true := by
  intro vs
  induction vs with
  | nil => intro _ v hv; simp at hv
  | cons v0 rest ih =>
    intro hok v hv
    unfold validate_param_values at hok
    split at hok
    · cases hok
    · split at hok
      · cases hok
      · next h1 h2 =>
        rcases List.mem_cons.mp hv with rfl | hmem
        · by_cases hm : safeSqlMatch v = true
          · exact hm
          · exact absurd (fun h => hm h) h2
        · exact ih hok v hmem

theorem validate_sql_params_sound :
    ∀ (params : List (String × List String)) (em : Option String),
      validate_sql_params params em = .ok () →
      ∀ p ∈ params, ∀ v ∈ p.2, safeSqlMatch v = true := by
  intro params
  induction params with
  | nil => intro em _ p hp; simp at hp
  | cons q rest ih =>
    intro em hok p hp
    unfold validate_sql_params at hok
    split at hok
    · cases hok
    · rcases hv : validate_param_values (paramText q.1) q.2 em q.2 with e | u
      · rw [hv] at hok
        cases hok
      · rw [hv] at hok
        rcases List.mem_cons.mp hp with rfl | hmem
        · exact validate_param_values_sound _ _ _ _ hv
        · exact ih em hok p hmem

/-- C10 counterexample: validate_sql_params ACCEPTS the value "a" followed
by a newline, even though that value is not built only of ASCII letters,
digits and underscore (the Python dollar anchor matches just before a
trailing newline), so the claimed characterization of accepted values is
false on the code. -/
theorem c10_counterexample :
    validate_sql_params [("column_names", ["a\n"])] none = .ok () ∧
    "a\n".toList.all isWordChar = false :=
  ⟨rfl, by decide⟩

/-- C10 amended: every identifier value accepted by validate_sql_params is
either 1 to 63 characters drawn only from [0-9A-Za-z_], or such a word run
followed by exactly one trailing newline (Python re dollar semantics); any
other value, the empty string included, raises ValueError. -/
theorem c10_amended (params : List (String × List String)) (em : Option String)
    (p : String × List String) (v : String)
    (hok : validate_sql_params params em = .ok ())
    (hp : p ∈ params) (hv : v ∈ p.2) :
    goodWordRun v.toList ∨ ∃ t, v.toList = t ++ [nlChar] ∧ goodWordRun t :=
  (safeSqlMatch_iff v).mp (validate_sql_params_sound params em hok p hp v hv)

theorem c10_amended_witness :
    validate_sql_params [("table", ["good_name"])] none = .ok () ∧
    ("table", ["good_name"]) ∈ [("table", ["good_name"])] ∧
    "good_name" ∈ ["good_name"] ∧
    (goodWordRun "good_name".toList ∨
      ∃ t, "good_name".toList = t ++ [nlChar] ∧ goodWordRun t) :=
  ⟨rfl, by decide, by decide,
   c10_amended [("table", ["good_name"])] none ("table", ["good_name"])
     "good_name" rfl (by decide) (by decide)⟩
